import Mathlib

/-!
Verification of the stable MIR traversal engine and the cycle-safe
allocation-graph serializer of compiler/stable_mir
(src/lib.rs, src/mir/alloc.rs, src/mir/visit.rs).

The Rust code is shallowly embedded: machine integers become Nat/Int,
hash sets become duplicate-free lists, the thread-local session slot
becomes an explicit Option-valued state parameter, fallible paths return
an explicit result type whose cases separate a recoverable Err from a
Rust panic, and the unbounded recursion of the allocation indexer is
given explicit fuel so that its termination is a provable statement
rather than an assumption.
-/

namespace StableMir

/-! ## Cycle-safe graph indexer (mir/alloc.rs) -/

/-- AllocId(usize): a unique identification number for each provenance
(mir/alloc.rs:49). -/
abbrev AllocId := Nat

/-- GlobalAlloc (mir/alloc.rs:14-26).  The Function/VTable/Static payloads
(Instance, Ty, Binder of ExistentialTraitRef, StaticDef) are interned handles
defined outside the serializer and never inspected by it; they are carried as
opaque numbers.  The Memory payload is reduced to the one field the indexer
reads: allocation.provenance.ptrs, the list of referenced allocation ids
(the component prov.0 of each (offset, prov) entry), in map iteration
order. -/
inductive GlobalAlloc where
  | Function (inst : Nat)
  | VTable (ty : Nat) (traitRef : Option Nat)
  | Static (staticDef : Nat)
  | Memory (provenance : List AllocId)
deriving DecidableEq

/-- The per-session registry of SerializeCycleCheck as used by
get_index_and_populate_allocs: the hash set seen_allocs and the vector
allocs_ordered.  The hash set is modelled as the list of its elements in
insertion order; the code only inserts an id after checking that it is
absent, so the list is duplicate-free and its membership test and length
agree with the hash set's contains and len. -/
structure SerializeCycleCheck where
  seen_allocs : List AllocId
  allocs_ordered : List AllocId
deriving DecidableEq

/-- allocs_ordered.into_iter().position(|alloc| alloc_id == alloc).unwrap()
(mir/alloc.rs:66-69): zero-based position of the first occurrence.  The
unwrap panics when the id is absent; the source only reaches it with the id
present (it is in seen_allocs, which the session keeps in sync with
allocs_ordered), and on every input with the id present this total version
agrees with the source. -/
def positionOf (a : AllocId) : List AllocId → Nat
  | [] => 0
  | b :: bs => if b = a then 0 else positionOf a bs + 1

/-- get_index_and_populate_allocs (mir/alloc.rs:51-72), with explicit
recursion fuel: the Rust recursion has no structurally decreasing argument
(its termination on cyclic provenance graphs is exactly what the seen check
must ensure), so each level of recursive descent consumes one unit of fuel
and an exhausted budget returns none.  The parameter galloc is the host
context lookup behind GlobalAlloc::from.  The fold over ptrs is the loop
allocation.provenance.ptrs.into_iter().for_each(...) of mir/alloc.rs:57-60:
each referenced id is fed back into the recursion in map iteration order and
the returned index is discarded. -/
def get_index_and_populate_allocs (galloc : AllocId → GlobalAlloc) :
    Nat → SerializeCycleCheck → AllocId → Option (SerializeCycleCheck × Nat)
  | 0, _, _ => none
  | fuel + 1, scc, alloc_id =>
    if alloc_id ∈ scc.seen_allocs then
      some (scc, positionOf alloc_id scc.allocs_ordered)
    else
      let scc1 : SerializeCycleCheck :=
        ⟨scc.seen_allocs ++ [alloc_id], scc.allocs_ordered ++ [alloc_id]⟩
      match galloc alloc_id with
      | .Memory ptrs =>
        match ptrs.foldl
            (fun acc b => acc.bind fun s =>
              (get_index_and_populate_allocs galloc fuel s b).map Prod.fst)
            (some scc1) with
        | none => none
        | some scc2 => some (scc2, scc2.seen_allocs.length - 1)
      | _ => some (scc1, scc1.seen_allocs.length - 1)

/-- The provenance loop of get_index_and_populate_allocs as a standalone
function: thread the registry through the recursion for every id of the
list, at one level of fuel below the caller; a recursive call that runs out
of fuel aborts the loop with none. -/
def populate_provenance (galloc : AllocId → GlobalAlloc) (fuel : Nat)
    (scc : SerializeCycleCheck) (l : List AllocId) :
    Option SerializeCycleCheck :=
  l.foldl
    (fun acc b => acc.bind fun s =>
      (get_index_and_populate_allocs galloc fuel s b).map Prod.fst)
    (some scc)

/-! ## Scoped serialization session (lib.rs) -/

/-- Outcome of an operation guarded by the scoped-session assertions:
either a fatal assert fires, or the operation completes with a value. -/
inductive SessionResult (α : Type) where
  | assertionFailure
  | ok (value : α)
deriving DecidableEq

/-- cycle_check (lib.rs:289-298): asserts that the thread-local session slot
TLV is set (and non-null), then runs f on the registry it points to.  The
slot is modelled as an explicit Option parameter (none = not set); the pair
returned is the outcome together with the slot contents afterwards. -/
def cycle_check {α : Type} (tlv : Option SerializeCycleCheck)
    (f : SerializeCycleCheck → SerializeCycleCheck × α) :
    SessionResult α × Option SerializeCycleCheck :=
  match tlv with
  | none => (.assertionFailure, none)
  | some scc => ((.ok (f scc).2), some (f scc).1)

/-- to_json (lib.rs:300-308): asserts that no session is active, then
installs a fresh Default registry for the dynamic extent of the
serialization and tears it down when the call returns.  The serde traversal
is abstracted as a function from the fresh registry to the final registry
and the produced value.  When the assertion fires the serializer is never
invoked and the outer slot is returned unchanged. -/
def to_json {α : Type} (tlv : Option SerializeCycleCheck)
    (serializer : SerializeCycleCheck → SerializeCycleCheck × α) :
    SessionResult α × Option SerializeCycleCheck :=
  match tlv with
  | some scc => (.assertionFailure, some scc)
  | none => ((.ok (serializer ⟨[], []⟩).2), none)

/-! ## Fixed-width integer decoding (mir/alloc.rs) -/

/-- Endian (target.rs, an external collaborator of this core). -/
inductive Endian where
  | Little
  | Big
deriving DecidableEq

/-- u128::from_le_bytes: little-endian value of a byte list (byte i weighted
by 256 ^ i). -/
def fromLeBytes : List Nat → Nat
  | [] => 0
  | b :: bs => b + 256 * fromLeBytes bs

/-- u128::from_be_bytes: big-endian value of a byte list. -/
def fromBeBytes (bytes : List Nat) : Nat :=
  bytes.foldl (fun acc b => 256 * acc + b) 0

/-- Two's-complement reinterpretation of a 128-bit unsigned value, as
performed by i128::from_le_bytes / i128::from_be_bytes on the same
buffer. -/
def toSigned128 (v : Nat) : Int :=
  if v < 2 ^ 127 then (v : Int) else (v : Int) - 2 ^ 128

/-- Result of one decode call: the Ok value, the recoverable Err case of the
returned Result (what the ? operator on read_exact would produce), or a Rust
panic. -/
inductive DecodeResult (α : Type) where
  | ok (v : α)
  | err
  | panicked
deriving DecidableEq

/-- read_target_uint (mir/alloc.rs:97-109).  buf is a 16-byte zero array.
For a slice of more than 16 bytes the subscript buf[..bytes.len()] (little
endian) or the index computation 16 - bytes.len() (big endian, usize
underflow) is out of range and the call panics.  Otherwise read_exact fills
the prefix (little) or the suffix (big) of buf from the slice; the source
slice has exactly the requested length, so read_exact cannot fail and the
? operator never produces the recoverable Err. -/
def read_target_uint (endianness : Endian) (bytes : List Nat) :
    DecodeResult Nat :=
  if 16 < bytes.length then .panicked
  else
    match endianness with
    | .Little => .ok (fromLeBytes (bytes ++ List.replicate (16 - bytes.length) 0))
    | .Big => .ok (fromBeBytes (List.replicate (16 - bytes.length) 0 ++ bytes))

/-- read_target_int (mir/alloc.rs:112-124): same buffer discipline as
read_target_uint, with the final 16 bytes reinterpreted as i128. -/
def read_target_int (endianness : Endian) (bytes : List Nat) :
    DecodeResult Int :=
  if 16 < bytes.length then .panicked
  else
    match endianness with
    | .Little =>
      .ok (toSigned128 (fromLeBytes (bytes ++ List.replicate (16 - bytes.length) 0)))
    | .Big =>
      .ok (toSigned128 (fromBeBytes (List.replicate (16 - bytes.length) 0 ++ bytes)))

/-! ## Place usage contexts (mir/visit.rs:793-808) -/

/-- PlaceContext: information about a place's usage.  The single private
field is_mut is the whole representation. -/
structure PlaceContext where
  is_mut : Bool
deriving DecidableEq

/-- PlaceContext::MUTATING. -/
def PlaceContext.MUTATING : PlaceContext := ⟨true⟩

/-- PlaceContext::NON_MUTATING. -/
def PlaceContext.NON_MUTATING : PlaceContext := ⟨false⟩

/-- PlaceContext::NON_USE. -/
def PlaceContext.NON_USE : PlaceContext := ⟨false⟩

/-- PlaceContext::is_mutating, the only public observation. -/
def PlaceContext.is_mutating (c : PlaceContext) : Bool := c.is_mut

/-! ## Concrete allocation graphs used as inputs -/

/-- A two-allocation graph: allocation 0 is memory whose provenance points to
allocation 1, and allocation 1 is memory with empty provenance. -/
def chainGraph : AllocId → GlobalAlloc := fun n =>
  if n = 0 then .Memory [1] else .Memory []

/-- A two-allocation graph: allocation 0 is memory whose provenance points to
allocation 1, which is a function pointer (no provenance of its own). -/
def linkGraph : AllocId → GlobalAlloc := fun n =>
  if n = 0 then .Memory [1] else .Function 0

/-- A two-allocation cyclic graph: 0 and 1 are memory pointing at each
other. -/
def cycleGraph : AllocId → GlobalAlloc := fun n =>
  if n = 0 then .Memory [1] else if n = 1 then .Memory [0] else .Function 0

/-! ## MIR body fragment

The statement-level node shapes destructured by the traversal
(mir/visit.rs:193-376).  The authoritative definitions live in the body
module of the same crate, outside the three files under verification; the
variant names and payload shapes below are exactly the ones forced by the
exhaustive match arms of super_statement, super_rvalue, super_operand and
super_place / super_projection_elem.  Payloads the traversal never
destructures (types, spans, regions, operator tags, interned handles) are
carried as opaque numbers. -/

/-- Local = usize; the field name `local` is a Lean keyword, spelled locl
here. -/
abbrev Local := Nat

/-- Span: interned source-location handle. -/
abbrev Span := Nat

/-- Ty: interned type handle, opaque at body level. -/
abbrev Ty := Nat

/-- Region: interned region handle. -/
abbrev Region := Nat

/-- Mutability (Not / Mut). -/
inductive Mutability where
  | Not
  | Mut
deriving DecidableEq

/-- BorrowKind: super_rvalue only asks whether the kind matches
BorrowKind::Mut { .. }. -/
inductive BorrowKind where
  | Shared
  | Fake
  | Mut (kind : Nat)
deriving DecidableEq

/-- ProjectionElem, with the variants matched in super_projection_elem
(mir/visit.rs:304-320). -/
inductive ProjectionElem where
  | Deref
  | Field (idx : Nat) (ty : Ty)
  | Index (l : Local)
  | ConstantIndex (offset : Nat) (minLength : Nat) (fromEnd : Bool)
  | Subslice (fromIdx : Nat) (toIdx : Nat) (fromEnd : Bool)
  | Downcast (idx : Nat)
  | OpaqueCast (ty : Ty)
  | Subtype (ty : Ty)
deriving DecidableEq

/-- Place: a local plus projection steps.  The source field local is the
Lean keyword, spelled locl. -/
structure Place where
  locl : Local
  projection : List ProjectionElem
deriving DecidableEq

/-- Const: { kind, ty, id }; super_const visits only the ty field
(mir/visit.rs:415-418). -/
structure Const where
  kind : Nat
  ty : Ty
  id : Nat
deriving DecidableEq

/-- Constant: { span, user_ty, literal }; super_constant visits the span
and the literal (mir/visit.rs:409-413). -/
structure Constant where
  span : Span
  user_ty : Option Nat
  literal : Const
deriving DecidableEq

/-- Operand (mir/visit.rs:367-376). -/
inductive Operand where
  | Copy (place : Place)
  | Move (place : Place)
  | Constant (constant : Constant)
deriving DecidableEq

/-- Rvalue, with the variants matched in super_rvalue
(mir/visit.rs:322-365). -/
inductive Rvalue where
  | AddressOf (mutability : Mutability) (place : Place)
  | Aggregate (kind : Nat) (operands : List Operand)
  | BinaryOp (op : Nat) (lhs : Operand) (rhs : Operand)
  | CheckedBinaryOp (op : Nat) (lhs : Operand) (rhs : Operand)
  | Cast (kind : Nat) (operand : Operand) (ty : Ty)
  | CopyForDeref (place : Place)
  | Discriminant (place : Place)
  | Len (place : Place)
  | Ref (region : Region) (kind : BorrowKind) (place : Place)
  | Repeat (operand : Operand) (count : Const)
  | ShallowInitBox (operand : Operand) (ty : Ty)
  | ThreadLocalRef (item : Nat)
  | NullaryOp (op : Nat) (ty : Ty)
  | UnaryOp (op : Nat) (operand : Operand)
  | Use (operand : Operand)
deriving DecidableEq

/-- CopyNonOverlapping { src, dst, count } (mir/visit.rs:231-239). -/
structure CopyNonOverlapping where
  src : Operand
  dst : Operand
  count : Operand
deriving DecidableEq

/-- NonDivergingIntrinsic (mir/visit.rs:227-240). -/
inductive NonDivergingIntrinsic where
  | Assume (operand : Operand)
  | CopyNonOverlapping (cno : CopyNonOverlapping)
deriving DecidableEq

/-- StatementKind, with the variants matched in super_statement
(mir/visit.rs:196-243).  The Coverage payload is the Opaque debug string,
carried as a number. -/
inductive StatementKind where
  | Assign (place : Place) (rvalue : Rvalue)
  | FakeRead (cause : Nat) (place : Place)
  | SetDiscriminant (place : Place) (variantIndex : Nat)
  | Deinit (place : Place)
  | StorageLive (l : Local)
  | StorageDead (l : Local)
  | Retag (kind : Nat) (place : Place)
  | PlaceMention (place : Place)
  | AscribeUserType (place : Place) (projections : Nat) (variance : Nat)
  | Coverage (coverage : Nat)
  | Intrinsic (intrinsic : NonDivergingIntrinsic)
  | ConstEvalCounter
  | Nop
deriving DecidableEq

/-- Statement { kind, span } (mir/visit.rs:194). -/
structure Statement where
  kind : StatementKind
  span : Span
deriving DecidableEq

/-- Location(Span) (mir/visit.rs:770-777). -/
structure Location where
  span : Span
deriving DecidableEq

/-! ## Trace model of the default statement-level traversal

Each function below is the behaviour of the corresponding default
(un-overridden) visit method, recording one event at the entry of every
visit call and concatenating the events of the structural descent that the
default body performs.  visit_ty additionally dispatches on ty.kind()
obtained from the host context; the type-kind layer visits no places and no
locals (see the call-graph model below), so body-level traces stop at the
type handle. -/

/-- Events: one per visit call in the body-level traversal. -/
inductive Event where
  | spanV (s : Span)
  | placeV (p : Place) (ctx : PlaceContext)
  | localV (l : Local) (ctx : PlaceContext)
  | projElemV (e : ProjectionElem) (ctx : PlaceContext)
  | tyV (t : Ty)
  | regionV (r : Region)
  | rvalueV (r : Rvalue)
  | operandV (o : Operand)
  | constantV (c : Constant)
  | constV (c : Const)
  | userTypeProjV (p : Nat)
  | opaqueV
deriving DecidableEq

/-- visit_local: the default body is a no-op (mir/visit.rs:90-92); only the
call itself is observable. -/
def traceVisitLocal (l : Local) (ptx : PlaceContext) (_loc : Location) :
    List Event :=
  [.localV l ptx]

/-- visit_span -> super_span, a no-op (mir/visit.rs:71-73, 289-291). -/
def traceVisitSpan (s : Span) : List Event :=
  [.spanV s]

/-- visit_ty (mir/visit.rs:106-110); the type-kind dispatch beyond the
handle contributes no body-level events. -/
def traceVisitTy (t : Ty) (_loc : Location) : List Event :=
  [.tyV t]

/-- visit_region -> super_region, a no-op (mir/visit.rs:128-131,
420-422). -/
def traceVisitRegion (r : Region) (_loc : Location) : List Event :=
  [.regionV r]

/-- visit_const -> super_const, which visits the ty field
(mir/visit.rs:124-126, 415-418). -/
def traceVisitConst (c : Const) (loc : Location) : List Event :=
  .constV c :: traceVisitTy c.ty loc

/-- visit_constant -> super_constant, which visits the span and the
literal (mir/visit.rs:120-122, 409-413). -/
def traceVisitConstant (c : Constant) (loc : Location) : List Event :=
  .constantV c :: (traceVisitSpan c.span ++ traceVisitConst c.literal loc)

/-- visit_user_type_projection -> super_user_type_projection, a no-op
(mir/visit.rs:102-104, 378-381). -/
def traceVisitUserTypeProjection (p : Nat) : List Event :=
  [.userTypeProjV p]

/-- visit_projection_elem -> super_projection_elem (mir/visit.rs:79-88,
304-320); the PlaceRef prefix argument is dropped by the default. -/
def traceVisitProjectionElem (e : ProjectionElem) (ptx : PlaceContext)
    (loc : Location) : List Event :=
  .projElemV e ptx ::
    (match e with
     | .Deref => []
     | .Field _ ty => traceVisitTy ty loc
     | .Index l => traceVisitLocal l ptx loc
     | .ConstantIndex _ _ _ => []
     | .Subslice _ _ _ => []
     | .Downcast _ => []
     | .OpaqueCast ty => traceVisitTy ty loc
     | .Subtype ty => traceVisitTy ty loc)

/-- visit_place -> super_place (mir/visit.rs:75-77, 293-302): visit the
local, then every projection element in order. -/
def traceVisitPlace (p : Place) (ptx : PlaceContext) (loc : Location) :
    List Event :=
  .placeV p ptx ::
    (traceVisitLocal p.locl ptx loc ++
      p.projection.flatMap fun e => traceVisitProjectionElem e ptx loc)

/-- visit_operand -> super_operand (mir/visit.rs:98-100, 367-376): Copy and
Move visit their place as NON_MUTATING, Constant visits the constant. -/
def traceVisitOperand (o : Operand) (loc : Location) : List Event :=
  .operandV o ::
    (match o with
     | .Copy place => traceVisitPlace place PlaceContext.NON_MUTATING loc
     | .Move place => traceVisitPlace place PlaceContext.NON_MUTATING loc
     | .Constant constant => traceVisitConstant constant loc)

/-- visit_rvalue -> super_rvalue (mir/visit.rs:94-96, 322-365). -/
def traceVisitRvalue (rv : Rvalue) (loc : Location) : List Event :=
  .rvalueV rv ::
    (match rv with
     | .AddressOf mutability place =>
       traceVisitPlace place ⟨mutability = Mutability.Mut⟩ loc
     | .Aggregate _ operands =>
       operands.flatMap fun op => traceVisitOperand op loc
     | .BinaryOp _ lhs rhs =>
       traceVisitOperand lhs loc ++ traceVisitOperand rhs loc
     | .CheckedBinaryOp _ lhs rhs =>
       traceVisitOperand lhs loc ++ traceVisitOperand rhs loc
     | .Cast _ op ty => traceVisitOperand op loc ++ traceVisitTy ty loc
     | .CopyForDeref place =>
       traceVisitPlace place PlaceContext.NON_MUTATING loc
     | .Discriminant place =>
       traceVisitPlace place PlaceContext.NON_MUTATING loc
     | .Len place => traceVisitPlace place PlaceContext.NON_MUTATING loc
     | .Ref region kind place =>
       traceVisitRegion region loc ++
         traceVisitPlace place
           ⟨match kind with | .Mut _ => true | _ => false⟩ loc
     | .Repeat op constant =>
       traceVisitOperand op loc ++ traceVisitConst constant loc
     | .ShallowInitBox op ty =>
       traceVisitTy ty loc ++ traceVisitOperand op loc
     | .ThreadLocalRef _ => []
     | .NullaryOp _ ty => traceVisitTy ty loc
     | .UnaryOp _ op => traceVisitOperand op loc
     | .Use op => traceVisitOperand op loc)

/-- visit_statement -> super_statement (mir/visit.rs:63-65, 193-244): visit
the span, then the variant's sub-structures with the usage contexts of the
source. -/
def traceVisitStatement (stmt : Statement) (loc : Location) : List Event :=
  traceVisitSpan stmt.span ++
    (match stmt.kind with
     | .Assign place rvalue =>
       traceVisitPlace place PlaceContext.MUTATING loc ++
         traceVisitRvalue rvalue loc
     | .FakeRead _ place =>
       traceVisitPlace place PlaceContext.NON_MUTATING loc
     | .SetDiscriminant place _ =>
       traceVisitPlace place PlaceContext.MUTATING loc
     | .Deinit place => traceVisitPlace place PlaceContext.MUTATING loc
     | .StorageLive l => traceVisitLocal l PlaceContext.NON_USE loc
     | .StorageDead l => traceVisitLocal l PlaceContext.NON_USE loc
     | .Retag _ place => traceVisitPlace place PlaceContext.MUTATING loc
     | .PlaceMention place =>
       traceVisitPlace place PlaceContext.NON_MUTATING loc
     | .AscribeUserType place projections _ =>
       traceVisitPlace place PlaceContext.NON_USE loc ++
         traceVisitUserTypeProjection projections
     | .Coverage _ => [.opaqueV]
     | .Intrinsic (.Assume operand) => traceVisitOperand operand loc
     | .Intrinsic (.CopyNonOverlapping cno) =>
       traceVisitOperand cno.src loc ++ traceVisitOperand cno.dst loc ++
         traceVisitOperand cno.count loc
     | .ConstEvalCounter => []
     | .Nop => [])

/-- The operands that super_rvalue feeds to visit_operand, in source order
(mir/visit.rs:322-365); places visited directly (AddressOf, Ref,
CopyForDeref, Discriminant, Len) are not operands. -/
def rvalueOperands : Rvalue → List Operand
  | .AddressOf _ _ => []
  | .Aggregate _ operands => operands
  | .BinaryOp _ lhs rhs => [lhs, rhs]
  | .CheckedBinaryOp _ lhs rhs => [lhs, rhs]
  | .Cast _ op _ => [op]
  | .CopyForDeref _ => []
  | .Discriminant _ => []
  | .Len _ => []
  | .Ref _ _ _ => []
  | .Repeat op _ => [op]
  | .ShallowInitBox op _ => [op]
  | .ThreadLocalRef _ => []
  | .NullaryOp _ _ => []
  | .UnaryOp _ op => [op]
  | .Use op => [op]

/-! ## Type-kind layer: descent completion (mir/visit.rs:470-757)

For the type-kind nodes the observable of interest is only whether the
default structural descent returns normally or terminates fatally with the
todo! (not yet implemented) panic, so the model records that completion
behaviour. -/

/-- RigidTy, with the variants dispatched in super_rigid_ty
(mir/visit.rs:475-500); payloads the dispatch passes along untouched are
opaque numbers, type handles are Ty. -/
inductive RigidTy where
  | Bool
  | Char
  | Int (ity : Nat)
  | Uint (uty : Nat)
  | Float (fty : Nat)
  | Adt (adtDef : Nat) (args : Nat)
  | Foreign (fdef : Nat)
  | Str
  | Array (ty : Ty) (len : Const)
  | Pat (ty : Ty) (pattern : Nat)
  | Slice (ty : Ty)
  | RawPtr (ty : Ty) (mutability : Mutability)
  | Ref (region : Region) (ty : Ty) (mutability : Mutability)
  | FnDef (fdef : Nat) (args : Nat)
  | FnPtr (sig : Nat)
  | Closure (cdef : Nat) (args : Nat)
  | Coroutine (cdef : Nat) (args : Nat) (movability : Nat)
  | Dynamic (binders : List Nat) (region : Region) (kind : Nat)
  | Never
  | Tuple (tys : List Ty)
  | CoroutineWitness (cdef : Nat) (args : Nat)
deriving DecidableEq

/-- AliasKind (dispatched in super_alias_ty, mir/visit.rs:684-693). -/
inductive AliasKind where
  | Projection
  | Inherent
  | Opaque
  | Weak
deriving DecidableEq

/-- AliasTy: opaque handle (never destructured by the default visitor). -/
abbrev AliasTy := Nat

/-- Completion behaviour of one default visit: either the call returns
normally, or it terminates the process with the todo! (not yet implemented)
panic. -/
inductive Descent where
  | completed
  | notYetImplemented
deriving DecidableEq

/-- The default visit of a rigid type node: super_rigid_ty dispatches each
variant to its visit operation, whose default forwards to the matching
super operation (mir/visit.rs:475-661).  Leaf kinds (Bool, Char, Int, Uint,
Float, Foreign, Str, Never) have no-op visits; super_adt, super_array,
super_raw_ptr, super_ref, super_fn_def and super_tuple contain only a
commented-out todo! and return silently; super_pat, super_slice,
super_fn_ptr, super_closure, super_coroutine and super_coroutine_witness
are an unconditional todo!; super_dynamic visits each binder and the
region, all of which complete. -/
def defaultVisitRigidTy : RigidTy → Descent
  | .Bool => .completed
  | .Char => .completed
  | .Int _ => .completed
  | .Uint _ => .completed
  | .Float _ => .completed
  | .Adt _ _ => .completed
  | .Foreign _ => .completed
  | .Str => .completed
  | .Array _ _ => .completed
  | .Pat _ _ => .notYetImplemented
  | .Slice _ => .notYetImplemented
  | .RawPtr _ _ => .completed
  | .Ref _ _ _ => .completed
  | .FnDef _ _ => .completed
  | .FnPtr _ => .notYetImplemented
  | .Closure _ _ => .notYetImplemented
  | .Coroutine _ _ _ => .notYetImplemented
  | .Dynamic _ _ _ => .completed
  | .Never => .completed
  | .Tuple _ => .completed
  | .CoroutineWitness _ _ => .notYetImplemented

/-- The default visit of an alias type node: super_alias_ty dispatches on
the kind to visit_alias_projection / inherent / opaque / weak, whose
default super bodies are all an unconditional todo!
(mir/visit.rs:684-712). -/
def defaultVisitAliasTy (kind : AliasKind) (_ty : AliasTy) : Descent :=
  match kind with
  | .Projection => .notYetImplemented
  | .Inherent => .notYetImplemented
  | .Opaque => .notYetImplemented
  | .Weak => .notYetImplemented

/-! ## Call-graph model of the MirVisitor default wiring

One constructor per operation of the MirVisitor trait (plus the free
function visit_opaque, spelled visitOpaqueNoOp), and for each operation the
list of trait operations its default body invokes, in source order and with
duplicates removed.  The node arguments are abstracted away; the claims
this model decides concern only which operations call which. -/

inductive Op where
  | visitBody
  | visitBasicBlock
  | visitRetDecl
  | visitArgDecl
  | visitLocalDecl
  | visitStatement
  | visitTerminator
  | visitSpan
  | visitPlace
  | visitProjectionElem
  | visitLocal
  | visitRvalue
  | visitOperand
  | visitUserTypeProjection
  | visitTy
  | visitTyKind
  | visitBinder
  | visitConstant
  | visitConst
  | visitRegion
  | visitArgs
  | visitAssertMsg
  | visitVarDebugInfo
  | visitRigidTy
  | visitBool
  | visitChar
  | visitInt
  | visitUint
  | visitFloat
  | visitAdt
  | visitForeign
  | visitStr
  | visitArray
  | visitPat
  | visitSlice
  | visitRawPtr
  | visitRef
  | visitFnDef
  | visitFnPtr
  | visitClosure
  | visitCoroutine
  | visitDynamic
  | visitNever
  | visitTuple
  | visitCoroutineWitness
  | visitAliasTy
  | visitAliasProjection
  | visitAliasInherent
  | visitAliasOpaque
  | visitAliasWeak
  | visitParamTy
  | visitBoundTy
  | visitBoundTyKind
  | visitBoundTyAnon
  | visitBoundTyParam
  | visitOpaqueNoOp
  | superBody
  | superBasicBlock
  | superRetDecl
  | superArgDecl
  | superLocalDecl
  | superStatement
  | superTerminator
  | superSpan
  | superPlace
  | superProjectionElem
  | superRvalue
  | superOperand
  | superUserTypeProjection
  | superTy
  | superTyKind
  | superBinder
  | superConstant
  | superConst
  | superRegion
  | superArgs
  | superAssertMsg
  | superVarDebugInfo
  | superRigidTy
  | superAdt
  | superArray
  | superPat
  | superSlice
  | superRawPtr
  | superRef
  | superFnDef
  | superFnPtr
  | superClosure
  | superCoroutine
  | superDynamic
  | superTuple
  | superCoroutineWitness
  | superAliasTy
  | superAliasProjection
  | superAliasInherent
  | superAliasOpaque
  | superAliasWeak
  | superParamTy
  | superBoundTy
  | superBoundTyKind
  | superBoundTyParam
deriving DecidableEq

/-- The trait operations each default body invokes (mir/visit.rs:42-757),
in source order, duplicates removed.  Operations whose default body is a
no-op, and the super operations that are an unconditional todo!, invoke
nothing. -/
def directCalls : Op → List Op
  | .visitBody => [.superBody]
  | .visitBasicBlock => [.superBasicBlock]
  | .visitRetDecl => [.superRetDecl]
  | .visitArgDecl => [.superArgDecl]
  | .visitLocalDecl => [.superLocalDecl]
  | .visitStatement => [.superStatement]
  | .visitTerminator => [.superTerminator]
  | .visitSpan => [.superSpan]
  | .visitPlace => [.superPlace]
  | .visitProjectionElem => [.superProjectionElem]
  | .visitLocal => []
  | .visitRvalue => [.superRvalue]
  | .visitOperand => [.superOperand]
  | .visitUserTypeProjection => [.superUserTypeProjection]
  | .visitTy => [.superTy, .visitTyKind]
  | .visitTyKind => [.superTyKind]
  | .visitBinder => [.superBinder]
  | .visitConstant => [.superConstant]
  | .visitConst => [.superConst]
  | .visitRegion => [.superRegion]
  | .visitArgs => [.superArgs]
  | .visitAssertMsg => [.superAssertMsg]
  | .visitVarDebugInfo => [.superVarDebugInfo]
  | .visitRigidTy => [.superRigidTy]
  | .visitBool => []
  | .visitChar => []
  | .visitInt => []
  | .visitUint => []
  | .visitFloat => []
  | .visitAdt => [.superAdt]
  | .visitForeign => []
  | .visitStr => []
  | .visitArray => [.superArray]
  | .visitPat => [.superPat]
  | .visitSlice => [.superSlice]
  | .visitRawPtr => [.superRawPtr]
  | .visitRef => [.superRef]
  | .visitFnDef => [.superFnDef]
  | .visitFnPtr => [.superFnPtr]
  | .visitClosure => [.superClosure]
  | .visitCoroutine => [.superCoroutine]
  | .visitDynamic => [.superDynamic]
  | .visitNever => []
  | .visitTuple => [.superTuple]
  | .visitCoroutineWitness => [.superCoroutineWitness]
  | .visitAliasTy => [.superAliasTy]
  | .visitAliasProjection => [.superAliasProjection]
  | .visitAliasInherent => [.superAliasInherent]
  | .visitAliasOpaque => [.superAliasOpaque]
  | .visitAliasWeak => [.superAliasWeak]
  | .visitParamTy => [.superParamTy]
  | .visitBoundTy => [.superBoundTy]
  | .visitBoundTyKind => [.superBoundTyKind]
  | .visitBoundTyAnon => []
  | .visitBoundTyParam => [.superBoundTyParam]
  | .visitOpaqueNoOp => []
  | .superBody => [.visitBasicBlock, .visitRetDecl, .visitArgDecl,
      .visitLocalDecl, .visitVarDebugInfo, .visitSpan]
  | .superBasicBlock => [.visitStatement, .visitTerminator]
  | .superRetDecl => [.superLocalDecl]
  | .superArgDecl => [.superLocalDecl]
  | .superLocalDecl => [.visitTy]
  | .superStatement => [.visitSpan, .visitPlace, .visitRvalue, .visitLocal,
      .visitUserTypeProjection, .visitOpaqueNoOp, .visitOperand]
  | .superTerminator => [.visitSpan, .visitOperand, .visitAssertMsg,
      .visitPlace, .visitLocal]
  | .superSpan => []
  | .superPlace => [.visitLocal, .visitProjectionElem]
  | .superProjectionElem => [.visitTy, .visitLocal]
  | .superRvalue => [.visitPlace, .visitOperand, .visitTy, .visitRegion,
      .visitConst]
  | .superOperand => [.visitPlace, .visitConstant]
  | .superUserTypeProjection => []
  | .superTy => []
  | .superTyKind => [.visitRigidTy, .visitAliasTy, .visitParamTy,
      .visitBoundTy]
  | .superBinder => []
  | .superConstant => [.visitSpan, .visitConst]
  | .superConst => [.visitTy]
  | .superRegion => []
  | .superArgs => []
  | .superAssertMsg => [.visitOperand]
  | .superVarDebugInfo => [.visitSpan, .visitTy, .visitPlace, .visitConst]
  | .superRigidTy => [.visitBool, .visitChar, .visitInt, .visitUint,
      .visitFloat, .visitAdt, .visitForeign, .visitStr, .visitArray,
      .visitPat, .visitSlice, .visitRawPtr, .visitRef, .visitFnDef,
      .visitFnPtr, .visitClosure, .visitCoroutine, .visitDynamic,
      .visitNever, .visitTuple, .visitCoroutineWitness]
  | .superAdt => []
  | .superArray => []
  | .superPat => []
  | .superSlice => []
  | .superRawPtr => []
  | .superRef => []
  | .superFnDef => []
  | .superFnPtr => []
  | .superClosure => []
  | .superCoroutine => []
  | .superDynamic => [.visitBinder, .visitRegion]
  | .superTuple => []
  | .superCoroutineWitness => []
  | .superAliasTy => [.visitAliasProjection, .visitAliasInherent,
      .visitAliasOpaque, .visitAliasWeak]
  | .superAliasProjection => []
  | .superAliasInherent => []
  | .superAliasOpaque => []
  | .superAliasWeak => []
  | .superParamTy => []
  | .superBoundTy => [.visitBoundTyKind]
  | .superBoundTyKind => [.visitBoundTyAnon, .visitBoundTyParam]
  | .superBoundTyParam => []

/-- The visit operations of the trait (override points), including the ones
without a structural-descent partner and the free no-op visit_opaque. -/
def visitOps : List Op :=
  [.visitBody, .visitBasicBlock, .visitRetDecl, .visitArgDecl,
   .visitLocalDecl, .visitStatement, .visitTerminator, .visitSpan,
   .visitPlace, .visitProjectionElem, .visitLocal, .visitRvalue,
   .visitOperand, .visitUserTypeProjection, .visitTy, .visitTyKind,
   .visitBinder, .visitConstant, .visitConst, .visitRegion, .visitArgs,
   .visitAssertMsg, .visitVarDebugInfo, .visitRigidTy, .visitBool,
   .visitChar, .visitInt, .visitUint, .visitFloat, .visitAdt,
   .visitForeign, .visitStr, .visitArray, .visitPat, .visitSlice,
   .visitRawPtr, .visitRef, .visitFnDef, .visitFnPtr, .visitClosure,
   .visitCoroutine, .visitDynamic, .visitNever, .visitTuple,
   .visitCoroutineWitness, .visitAliasTy, .visitAliasProjection,
   .visitAliasInherent, .visitAliasOpaque, .visitAliasWeak, .visitParamTy,
   .visitBoundTy, .visitBoundTyKind, .visitBoundTyAnon, .visitBoundTyParam,
   .visitOpaqueNoOp]

/-- The node kinds possessing a visit / structural-descent pair, as
(visit operation, super operation). -/
def visitSuperPairs : List (Op × Op) :=
  [(.visitBody, .superBody), (.visitBasicBlock, .superBasicBlock),
   (.visitRetDecl, .superRetDecl), (.visitArgDecl, .superArgDecl),
   (.visitLocalDecl, .superLocalDecl), (.visitStatement, .superStatement),
   (.visitTerminator, .superTerminator), (.visitSpan, .superSpan),
   (.visitPlace, .superPlace),
   (.visitProjectionElem, .superProjectionElem),
   (.visitRvalue, .superRvalue), (.visitOperand, .superOperand),
   (.visitUserTypeProjection, .superUserTypeProjection),
   (.visitTy, .superTy), (.visitTyKind, .superTyKind),
   (.visitBinder, .superBinder), (.visitConstant, .superConstant),
   (.visitConst, .superConst), (.visitRegion, .superRegion),
   (.visitArgs, .superArgs), (.visitAssertMsg, .superAssertMsg),
   (.visitVarDebugInfo, .superVarDebugInfo),
   (.visitRigidTy, .superRigidTy), (.visitAdt, .superAdt),
   (.visitArray, .superArray), (.visitPat, .superPat),
   (.visitSlice, .superSlice), (.visitRawPtr, .superRawPtr),
   (.visitRef, .superRef), (.visitFnDef, .superFnDef),
   (.visitFnPtr, .superFnPtr), (.visitClosure, .superClosure),
   (.visitCoroutine, .superCoroutine), (.visitDynamic, .superDynamic),
   (.visitTuple, .superTuple),
   (.visitCoroutineWitness, .superCoroutineWitness),
   (.visitAliasTy, .superAliasTy),
   (.visitAliasProjection, .superAliasProjection),
   (.visitAliasInherent, .superAliasInherent),
   (.visitAliasOpaque, .superAliasOpaque),
   (.visitAliasWeak, .superAliasWeak), (.visitParamTy, .superParamTy),
   (.visitBoundTy, .superBoundTy),
   (.visitBoundTyKind, .superBoundTyKind),
   (.visitBoundTyParam, .superBoundTyParam)]

/-! ## Partial-place typing (PlaceRef::ty, mir/visit.rs:780-790)

PlaceRef::ty folds ProjectionElem::ty over the projection steps.
ProjectionElem::ty lives in the body module, outside the files under
verification, so the per-step computation is modelled from the spec; the
fold itself is the source code. -/

namespace PlaceTy

/-- Modelled from the spec: the structured type shapes (section 3's type
model) needed to decide whether a projection step applies — references and
raw pointers (dereferenceable), tuples (field-addressable), arrays and
slices (indexable), and unstructured primitives.  The authoritative
Ty/TyKind live in the host type module, outside src. -/
inductive MTy where
  | prim (code : Nat)
  | tup (elems : List MTy)
  | array (elem : MTy) (len : Nat)
  | slice (elem : MTy)
  | ref (pointee : MTy)
  | rawPtr (pointee : MTy)

/-- Projection steps (spec section 3: dereference, field access, index,
subslice, downcast, type-changing casts). -/
inductive MElem where
  | Deref
  | Field (idx : Nat)
  | Index
  | Subslice
  | Downcast
  | SubtypeCast (target : MTy)

/-- Modelled from the spec: ProjectionElem::ty, the per-step type
computation — Deref needs a reference or raw pointer, Field an
in-range tuple field, Index and Subslice an array or slice; an
inapplicable step yields the failure value (the Error payload, defined
outside this core, is collapsed to Unit). -/
def elemTy : MElem → MTy → Except Unit MTy
  | .Deref, .ref t => .ok t
  | .Deref, .rawPtr t => .ok t
  | .Deref, _ => .error ()
  | .Field i, .tup ts =>
    match ts[i]? with
    | some t => .ok t
    | none => .error ()
  | .Field _, _ => .error ()
  | .Index, .array t _ => .ok t
  | .Index, .slice t => .ok t
  | .Index, _ => .error ()
  | .Subslice, .array t _ => .ok (.slice t)
  | .Subslice, .slice t => .ok (.slice t)
  | .Subslice, _ => .error ()
  | .Downcast, t => .ok t
  | .SubtypeCast target, _ => .ok target

/-- LocalDecl { ty, span, .. }: only the declared type matters here. -/
structure LocalDecl where
  ty : MTy
  span : Nat

/-- PlaceRef: a local plus a prefix of projection steps
(mir/visit.rs:780-783); the source field local is a Lean keyword, spelled
locl. -/
structure PlaceRef where
  locl : Nat
  projection : List MElem

/-- PlaceRef::ty (mir/visit.rs:786-789): fold the steps left-to-right over
the Result, starting from locals[self.local].ty; the closure
|place_ty, elem| elem.ty(place_ty?) short-circuits on the first failure.
Indexing locals is backed by the hypothesis that the list contains the
local (out of range would be a Rust panic outside the claim's domain). -/
def PlaceRef.tyOf (pr : PlaceRef) (locals : List LocalDecl)
    (h : pr.locl < locals.length) : Except Unit MTy :=
  pr.projection.foldl
    (fun place_ty elem => place_ty.bind fun t => elemTy elem t)
    (Except.ok (locals.get ⟨pr.locl, h⟩).ty)

/-- The direct step-by-step manual computation of the same type: apply each
step in order, stopping at the first failure. -/
def placeTyRec (elems : List MElem) (t : MTy) : Except Unit MTy :=
  match elems with
  | [] => .ok t
  | e :: rest =>
    match elemTy e t with
    | .ok t' => placeTyRec rest t'
    | .error err => .error err

end PlaceTy

/-! ### Unfolding equations for the indexer -/

theorem populate_foldl_none (galloc : AllocId → GlobalAlloc) (fuel : Nat) :
    ∀ bs : List AllocId,
      bs.foldl
        (fun acc b => acc.bind fun s =>
          (get_index_and_populate_allocs galloc fuel s b).map Prod.fst)
        none = none
  | [] => rfl
  | _ :: bs => populate_foldl_none galloc fuel bs

theorem populate_provenance_nil (galloc : AllocId → GlobalAlloc) (fuel : Nat)
    (scc : SerializeCycleCheck) :
    populate_provenance galloc fuel scc [] = some scc := rfl

theorem populate_provenance_cons (galloc : AllocId → GlobalAlloc) (fuel : Nat)
    (scc : SerializeCycleCheck) (b : AllocId) (bs : List AllocId) :
    populate_provenance galloc fuel scc (b :: bs) =
      match get_index_and_populate_allocs galloc fuel scc b with
      | none => none
      | some r => populate_provenance galloc fuel r.1 bs := by
  cases h : get_index_and_populate_allocs galloc fuel scc b with
  | none =>
    show List.foldl _ (some scc) (b :: bs) = none
    rw [List.foldl_cons]
    have hstep : ((some scc).bind fun s =>
        (get_index_and_populate_allocs galloc fuel s b).map Prod.fst) = none := by
      rw [Option.some_bind, h]; rfl
    rw [hstep]
    exact populate_foldl_none galloc fuel bs
  | some r =>
    show List.foldl _ (some scc) (b :: bs) = populate_provenance galloc fuel r.1 bs
    rw [List.foldl_cons]
    have hstep : ((some scc).bind fun s =>
        (get_index_and_populate_allocs galloc fuel s b).map Prod.fst) = some r.1 := by
      rw [Option.some_bind, h]; rfl
    rw [hstep]
    rfl

theorem get_index_zero (galloc : AllocId → GlobalAlloc)
    (scc : SerializeCycleCheck) (a : AllocId) :
    get_index_and_populate_allocs galloc 0 scc a = none := rfl

theorem get_index_seen (galloc : AllocId → GlobalAlloc) (fuel : Nat)
    (scc : SerializeCycleCheck) (a : AllocId) (h : a ∈ scc.seen_allocs) :
    get_index_and_populate_allocs galloc (fuel + 1) scc a =
      some (scc, positionOf a scc.allocs_ordered) := by
  simp [get_index_and_populate_allocs, h]

theorem get_index_memory (galloc : AllocId → GlobalAlloc) (fuel : Nat)
    (scc : SerializeCycleCheck) (a : AllocId) (ptrs : List AllocId)
    (h : a ∉ scc.seen_allocs) (hga : galloc a = .Memory ptrs) :
    get_index_and_populate_allocs galloc (fuel + 1) scc a =
      match populate_provenance galloc fuel
          ⟨scc.seen_allocs ++ [a], scc.allocs_ordered ++ [a]⟩ ptrs with
      | none => none
      | some scc2 => some (scc2, scc2.seen_allocs.length - 1) := by
  simp [get_index_and_populate_allocs, h, hga, populate_provenance]

theorem get_index_not_memory (galloc : AllocId → GlobalAlloc) (fuel : Nat)
    (scc : SerializeCycleCheck) (a : AllocId)
    (h : a ∉ scc.seen_allocs) (hga : ∀ ptrs, galloc a ≠ .Memory ptrs) :
    get_index_and_populate_allocs galloc (fuel + 1) scc a =
      some (⟨scc.seen_allocs ++ [a], scc.allocs_ordered ++ [a]⟩,
        scc.seen_allocs.length) := by
  rcases hg : galloc a with i | ⟨t, tr⟩ | sd | ptrs
  · simp [get_index_and_populate_allocs, h, hg]
  · simp [get_index_and_populate_allocs, h, hg]
  · simp [get_index_and_populate_allocs, h, hg]
  · exact absurd hg (hga ptrs)

/-- Success of the indexer only ever appends one common block to both
registry components, the requested id ends up seen, and every id of a
successfully processed provenance list ends up seen. -/
theorem registry_growth (galloc : AllocId → GlobalAlloc) :
    ∀ fuel : Nat,
      (∀ scc a out,
        get_index_and_populate_allocs galloc fuel scc a = some out →
          ∃ Δ, out.1.seen_allocs = scc.seen_allocs ++ Δ ∧
            out.1.allocs_ordered = scc.allocs_ordered ++ Δ ∧
            a ∈ out.1.seen_allocs) ∧
      (∀ scc l scc',
        populate_provenance galloc fuel scc l = some scc' →
          ∃ Δ, scc'.seen_allocs = scc.seen_allocs ++ Δ ∧
            scc'.allocs_ordered = scc.allocs_ordered ++ Δ ∧
            ∀ b ∈ l, b ∈ scc'.seen_allocs) := by
  intro fuel
  induction fuel with
  | zero =>
    constructor
    · intro scc a out h
      rw [get_index_zero] at h
      cases h
    · intro scc l scc' h
      cases l with
      | nil =>
        rw [populate_provenance_nil] at h
        cases h
        exact ⟨[], by simp, by simp, by simp⟩
      | cons b bs =>
        rw [populate_provenance_cons, get_index_zero] at h
        cases h
  | succ n ih =>
    have hP : ∀ scc a out,
        get_index_and_populate_allocs galloc (n + 1) scc a = some out →
          ∃ Δ, out.1.seen_allocs = scc.seen_allocs ++ Δ ∧
            out.1.allocs_ordered = scc.allocs_ordered ++ Δ ∧
            a ∈ out.1.seen_allocs := by
      intro scc a out h
      by_cases hs : a ∈ scc.seen_allocs
      · rw [get_index_seen galloc n scc a hs] at h
        cases h
        exact ⟨[], by simp, by simp, hs⟩
      · have hother : (∀ ptrs, galloc a ≠ .Memory ptrs) →
            ∃ Δ, out.1.seen_allocs = scc.seen_allocs ++ Δ ∧
              out.1.allocs_ordered = scc.allocs_ordered ++ Δ ∧
              a ∈ out.1.seen_allocs := by
          intro hga
          rw [get_index_not_memory galloc n scc a hs hga] at h
          cases h
          exact ⟨[a], rfl, rfl, by simp⟩
        cases hg : galloc a with
        | Memory ptrs =>
          rw [get_index_memory galloc n scc a ptrs hs hg] at h
          cases hpp : populate_provenance galloc n
              ⟨scc.seen_allocs ++ [a], scc.allocs_ordered ++ [a]⟩ ptrs with
          | none => rw [hpp] at h; cases h
          | some scc2 =>
            rw [hpp] at h
            cases h
            obtain ⟨Δ2, hs2, ho2, _⟩ := ih.2 _ _ _ hpp
            refine ⟨a :: Δ2, ?_, ?_, ?_⟩
            · rw [hs2]; simp
            · rw [ho2]; simp
            · rw [hs2]; simp
        | Function i =>
          exact hother fun p hp => by rw [hg] at hp; cases hp
        | VTable t tr =>
          exact hother fun p hp => by rw [hg] at hp; cases hp
        | Static sd =>
          exact hother fun p hp => by rw [hg] at hp; cases hp
    have hQ : ∀ scc l scc',
        populate_provenance galloc (n + 1) scc l = some scc' →
          ∃ Δ, scc'.seen_allocs = scc.seen_allocs ++ Δ ∧
            scc'.allocs_ordered = scc.allocs_ordered ++ Δ ∧
            ∀ b ∈ l, b ∈ scc'.seen_allocs := by
      intro scc l
      induction l generalizing scc with
      | nil =>
        intro scc' h
        rw [populate_provenance_nil] at h
        cases h
        exact ⟨[], by simp, by simp, by simp⟩
      | cons b bs ihl =>
        intro scc' h
        rw [populate_provenance_cons] at h
        cases hb : get_index_and_populate_allocs galloc (n + 1) scc b with
        | none => rw [hb] at h; cases h
        | some r =>
          rw [hb] at h
          have h' : populate_provenance galloc (n + 1) r.1 bs = some scc' := h
          obtain ⟨Δ1, hs1, ho1, hmem1⟩ := hP scc b r hb
          obtain ⟨Δ2, hs2, ho2, hmem2⟩ := ihl r.1 scc' h'
          refine ⟨Δ1 ++ Δ2, ?_, ?_, ?_⟩
          · rw [hs2, hs1, List.append_assoc]
          · rw [ho2, ho1, List.append_assoc]
          · intro x hx
            rcases List.mem_cons.mp hx with rfl | hx'
            · rw [hs2]; exact List.mem_append_left _ hmem1
            · exact hmem2 x hx'
    exact ⟨hP, hQ⟩

/-! ## Claim theorems: indexer and session -/

/-- Claim C1: for any two distinct allocations A and B that are memory whose
provenances point at each other, requesting A's index from a fresh session
terminates — the recursion needs only a bounded depth, the result being the
same for every recursion budget of at least 3 — and leaves exactly the two
entries A then B in the session's ordered list, each allocation appended and
descended into exactly once. -/
theorem cycle_termination_C1 (galloc : AllocId → GlobalAlloc) (A B : AllocId)
    (hAB : A ≠ B) (hA : galloc A = .Memory [B]) (hB : galloc B = .Memory [A]) :
    ∀ fuel, 3 ≤ fuel →
      get_index_and_populate_allocs galloc fuel ⟨[], []⟩ A =
        some (⟨[A, B], [A, B]⟩, 1) := by
  intro fuel hf
  obtain ⟨n, rfl⟩ : ∃ n, fuel = n + 3 := ⟨fuel - 3, by omega⟩
  have h1 : get_index_and_populate_allocs galloc (n + 1) ⟨[A, B], [A, B]⟩ A =
      some (⟨[A, B], [A, B]⟩, 0) := by
    rw [get_index_seen galloc n ⟨[A, B], [A, B]⟩ A (by simp)]
    simp [positionOf]
  have h2 : get_index_and_populate_allocs galloc (n + 2) ⟨[A], [A]⟩ B =
      some (⟨[A, B], [A, B]⟩, 1) := by
    have e : n + 2 = (n + 1) + 1 := rfl
    rw [e, get_index_memory galloc (n + 1) ⟨[A], [A]⟩ B [A]
      (by simp [hAB.symm]) hB]
    simp only [List.singleton_append]
    rw [populate_provenance_cons, h1]
    simp [populate_provenance_nil]
  have e : n + 3 = (n + 2) + 1 := rfl
  rw [e, get_index_memory galloc (n + 2) ⟨[], []⟩ A [B] (by simp) hA]
  simp only [List.nil_append]
  rw [populate_provenance_cons, h2]
  simp [populate_provenance_nil]

/-- Witness for C1 at the concrete two-cycle graph. -/
theorem cycle_termination_C1_w :
    (0 : AllocId) ≠ 1 ∧ cycleGraph 0 = .Memory [1] ∧
      cycleGraph 1 = .Memory [0] ∧ (3 : Nat) ≤ 3 ∧
      get_index_and_populate_allocs cycleGraph 3 ⟨[], []⟩ 0 =
        some (⟨[0, 1], [0, 1]⟩, 1) :=
  ⟨by decide, rfl, rfl, by decide,
    cycle_termination_C1 cycleGraph 0 1 (by decide) rfl rfl 3 (by decide)⟩

/-- Claim C2 (code bug): requesting the index of allocation 0 twice in the
same session is not idempotent.  In the graph where allocation 0's provenance
pulls in allocation 1, the first request returns seen_allocs.len() - 1
evaluated after the recursion (1), while the second request returns
allocation 0's position in allocs_ordered (0). -/
theorem index_not_idempotent_C2 :
    get_index_and_populate_allocs chainGraph 3 ⟨[], []⟩ 0 =
      some (⟨[0, 1], [0, 1]⟩, 1) ∧
    get_index_and_populate_allocs chainGraph 3 ⟨[0, 1], [0, 1]⟩ 0 =
      some (⟨[0, 1], [0, 1]⟩, 0) ∧
    (1 : Nat) ≠ 0 :=
  ⟨rfl, rfl, by decide⟩

/-- Claim C3 (amended): on first encounter of an id a the indexer appends a
to the ordered list before any recursion (the final ordered list extends the
old one by a block starting with a); it recurses into the provenance ids, in
map iteration order, exactly when a resolves to Memory (for the other
variants the registry gains exactly the one entry a); every provenance id is
in the ordered list before the call returns; the value returned on first
encounter is the number of seen allocations minus one (which need not be a's
own position); and for an already-seen id the call leaves the registry
unchanged and returns that id's position in the ordered list. -/
theorem first_encounter_structure_C3 (galloc : AllocId → GlobalAlloc)
    (fuel : Nat) (scc : SerializeCycleCheck) (a : AllocId)
    (scc' : SerializeCycleCheck) (i : Nat)
    (hsync : scc.seen_allocs = scc.allocs_ordered)
    (h : get_index_and_populate_allocs galloc fuel scc a = some (scc', i)) :
    (a ∈ scc.seen_allocs →
      scc' = scc ∧ i = positionOf a scc.allocs_ordered) ∧
    (a ∉ scc.seen_allocs →
      ∃ Δ, scc'.allocs_ordered = scc.allocs_ordered ++ a :: Δ) ∧
    (a ∉ scc.seen_allocs → (∀ ptrs, galloc a ≠ GlobalAlloc.Memory ptrs) →
      scc' = ⟨scc.seen_allocs ++ [a], scc.allocs_ordered ++ [a]⟩ ∧
        i = scc.seen_allocs.length) ∧
    (a ∉ scc.seen_allocs → ∀ ptrs, galloc a = GlobalAlloc.Memory ptrs →
      (∃ fuel', fuel = fuel' + 1 ∧
        populate_provenance galloc fuel'
            ⟨scc.seen_allocs ++ [a], scc.allocs_ordered ++ [a]⟩ ptrs =
          some scc' ∧ i = scc'.seen_allocs.length - 1) ∧
      ∀ b ∈ ptrs, b ∈ scc'.allocs_ordered) := by
  cases fuel with
  | zero => rw [get_index_zero] at h; cases h
  | succ n =>
    by_cases hs : a ∈ scc.seen_allocs
    · rw [get_index_seen galloc n scc a hs] at h
      cases h
      exact ⟨fun _ => ⟨rfl, rfl⟩, fun hn => absurd hs hn,
        fun hn => absurd hs hn, fun hn => absurd hs hn⟩
    · have hconj1 : a ∈ scc.seen_allocs →
          scc' = scc ∧ i = positionOf a scc.allocs_ordered :=
        fun hmem => absurd hmem hs
      cases hg : galloc a with
      | Memory ptrs =>
        rw [get_index_memory galloc n scc a ptrs hs hg] at h
        cases hpp : populate_provenance galloc n
            ⟨scc.seen_allocs ++ [a], scc.allocs_ordered ++ [a]⟩ ptrs with
        | none => rw [hpp] at h; cases h
        | some scc2 =>
          rw [hpp] at h
          cases h
          obtain ⟨Δ2, hs2, ho2, hbmem⟩ := (registry_growth galloc n).2 _ _ _ hpp
          refine ⟨hconj1, ?_, ?_, ?_⟩
          · intro _; exact ⟨Δ2, by rw [ho2]; simp⟩
          · intro _ hga; exact absurd rfl (hga ptrs)
          · intro _ ptrs' hg'
            cases hg'
            refine ⟨⟨n, rfl, hpp, rfl⟩, ?_⟩
            intro b hbp
            have hsync2 : scc'.seen_allocs = scc'.allocs_ordered := by
              rw [hs2, ho2]
              show (scc.seen_allocs ++ [a]) ++ Δ2 = _
              rw [hsync]
            rw [← hsync2]
            exact hbmem b hbp
      | Function i0 =>
        rw [get_index_not_memory galloc n scc a hs
          (fun p hp => by rw [hg] at hp; cases hp)] at h
        cases h
        exact ⟨hconj1, fun _ => ⟨[], rfl⟩, fun _ _ => ⟨rfl, rfl⟩,
          fun _ p hp => by cases hp⟩
      | VTable t tr =>
        rw [get_index_not_memory galloc n scc a hs
          (fun p hp => by rw [hg] at hp; cases hp)] at h
        cases h
        exact ⟨hconj1, fun _ => ⟨[], rfl⟩, fun _ _ => ⟨rfl, rfl⟩,
          fun _ p hp => by cases hp⟩
      | Static sd =>
        rw [get_index_not_memory galloc n scc a hs
          (fun p hp => by rw [hg] at hp; cases hp)] at h
        cases h
        exact ⟨hconj1, fun _ => ⟨[], rfl⟩, fun _ _ => ⟨rfl, rfl⟩,
          fun _ p hp => by cases hp⟩

/-- Counterexample to C3 as frozen: in the graph where allocation 0's
memory references the function allocation 1, the first call for 0 returns 1
(the seen count after the recursion, minus one), but 0's own index — its
position in the ordered list — is 0, so the value returned on first
encounter is not "A's own index". -/
theorem first_index_differs_C3_cx :
    get_index_and_populate_allocs linkGraph 3 ⟨[], []⟩ 0 =
      some (⟨[0, 1], [0, 1]⟩, 1) ∧
    positionOf 0 [0, 1] = 0 ∧ (1 : Nat) ≠ 0 :=
  ⟨rfl, rfl, by decide⟩

/-- Witness for the amended C3 at the concrete graph linkGraph. -/
theorem first_encounter_structure_C3_w :
    get_index_and_populate_allocs linkGraph 3 ⟨[], []⟩ 0 =
      some (⟨[0, 1], [0, 1]⟩, 1) ∧
    (∃ Δ, ([0, 1] : List AllocId) = [] ++ 0 :: Δ) ∧
    (1 : AllocId) ∈ ([0, 1] : List AllocId) := by
  have happ := first_encounter_structure_C3 linkGraph 3 ⟨[], []⟩ 0
    ⟨[0, 1], [0, 1]⟩ 1 rfl rfl
  refine ⟨rfl, ?_, ?_⟩
  · exact happ.2.1 (by simp)
  · exact (happ.2.2.2 (by simp) [1] rfl).2 1 (by simp)

/-- Claim C4: establishing a serialization session while one is already
active fails with the fatal assertion before the serializer runs (the
outcome does not depend on the serializer and the active registry is
returned untouched), and accessing the registry through cycle_check when no
session is active fails with the fatal assertion. -/
theorem scope_discipline_C4 :
    (∀ (α : Type) (scc : SerializeCycleCheck)
        (s : SerializeCycleCheck → SerializeCycleCheck × α),
      to_json (some scc) s = (.assertionFailure, some scc)) ∧
    (∀ (α : Type) (f : SerializeCycleCheck → SerializeCycleCheck × α),
      cycle_check none f = (.assertionFailure, none)) :=
  ⟨fun _ _ _ => rfl, fun _ _ => rfl⟩

/-- Claim C10: PlaceContext::NON_USE and PlaceContext::NON_MUTATING are the
identical value (both carry is_mut = false), every place context is equal to
MUTATING or to NON_MUTATING, and is_mutating is false on both non-mutating
constants, so the three-way classification is observably two-valued. -/
theorem place_context_two_valued_C10 :
    PlaceContext.NON_USE = PlaceContext.NON_MUTATING ∧
    PlaceContext.NON_USE.is_mutating = false ∧
    PlaceContext.NON_MUTATING.is_mutating = false ∧
    ∀ c : PlaceContext,
      c = PlaceContext.MUTATING ∨ c = PlaceContext.NON_MUTATING := by
  refine ⟨rfl, rfl, rfl, ?_⟩
  rintro ⟨b⟩
  cases b
  · right; rfl
  · left; rfl

/-! ## Claim theorems: fixed-width integer decoding -/

theorem fromLeBytes_replicate_zero : ∀ k, fromLeBytes (List.replicate k 0) = 0
  | 0 => rfl
  | k + 1 => by
    simp [List.replicate_succ, fromLeBytes, fromLeBytes_replicate_zero k]

theorem fromLeBytes_append_zeros (bytes : List Nat) (k : Nat) :
    fromLeBytes (bytes ++ List.replicate k 0) = fromLeBytes bytes := by
  induction bytes with
  | nil => simp [fromLeBytes, fromLeBytes_replicate_zero]
  | cons b bs ih => simp [fromLeBytes, ih]

theorem fromBeBytes_foldl_zeros (k : Nat) :
    List.foldl (fun acc b => 256 * acc + b) 0 (List.replicate k 0) = 0 := by
  induction k with
  | zero => rfl
  | succ n ih => simpa [List.replicate_succ] using ih

theorem fromBeBytes_prepend_zeros (bytes : List Nat) (k : Nat) :
    fromBeBytes (List.replicate k 0 ++ bytes) = fromBeBytes bytes := by
  unfold fromBeBytes
  rw [List.foldl_append, fromBeBytes_foldl_zeros]

/-- Claim C8 (amended): for an input slice of at most 16 bytes both readers
return Ok of the integer decoded with the target endianness (the zero
padding of the internal 16-byte buffer contributes nothing, no truncation,
and the recoverable Err case is never produced); a slice of more than 16
bytes makes both readers panic (out-of-range buffer subscript), not return
a recoverable Err. -/
theorem read_target_C8 (endianness : Endian) (bytes : List Nat)
    (h : bytes.length ≤ 16) :
    read_target_uint endianness bytes =
      .ok (match endianness with
        | .Little => fromLeBytes bytes
        | .Big => fromBeBytes bytes) ∧
    read_target_int endianness bytes =
      .ok (toSigned128 (match endianness with
        | .Little => fromLeBytes bytes
        | .Big => fromBeBytes bytes)) ∧
    ∀ bs : List Nat, 16 < bs.length →
      read_target_uint endianness bs = .panicked ∧
      read_target_int endianness bs = .panicked := by
  have hn : ¬ 16 < bytes.length := by omega
  cases endianness with
  | Little =>
    refine ⟨?_, ?_, fun bs hbs => ⟨?_, ?_⟩⟩
    · simp [read_target_uint, hn, fromLeBytes_append_zeros]
    · simp [read_target_int, hn, fromLeBytes_append_zeros]
    · simp [read_target_uint, hbs]
    · simp [read_target_int, hbs]
  | Big =>
    refine ⟨?_, ?_, fun bs hbs => ⟨?_, ?_⟩⟩
    · simp [read_target_uint, hn, fromBeBytes_prepend_zeros]
    · simp [read_target_int, hn, fromBeBytes_prepend_zeros]
    · simp [read_target_uint, hbs]
    · simp [read_target_int, hbs]

/-- Counterexample to C8 as frozen: a 17-byte slice makes both readers
panic; the outcome is neither the recoverable Err nor any Ok value. -/
theorem oversized_read_panics_C8_cx :
    read_target_uint .Little (List.replicate 17 0) = .panicked ∧
    read_target_uint .Big (List.replicate 17 0) = .panicked ∧
    read_target_int .Little (List.replicate 17 0) = .panicked ∧
    read_target_int .Big (List.replicate 17 0) = .panicked ∧
    (DecodeResult.panicked : DecodeResult Nat) ≠ .err ∧
    ∀ v : Nat, (DecodeResult.panicked : DecodeResult Nat) ≠ .ok v :=
  ⟨rfl, rfl, rfl, rfl, by decide, fun _ h => by cases h⟩

/-- Witness for the amended C8 at a concrete two-byte slice. -/
theorem read_target_C8_w :
    ([1, 2] : List Nat).length ≤ 16 ∧
    read_target_uint .Little [1, 2] = .ok 513 ∧
    read_target_uint .Big [1, 2] = .ok 258 :=
  ⟨by decide,
    by rw [(read_target_C8 .Little [1, 2] (by decide)).1]; rfl,
    by rw [(read_target_C8 .Big [1, 2] (by decide)).1]; rfl⟩

/-! ## Claim theorems: type-kind descent (C5) -/

/-- Claim C5 (amended): the structural-descent defaults for patterns,
slices, function pointers, closures, coroutines, coroutine witnesses and
all four alias kinds terminate fatally with the explicit todo! (not yet
implemented) panic; those for ADTs, arrays, raw pointers, references,
function definitions and tuples return silently without descending (their
todo! is commented out). -/
theorem todo_descent_kinds_C5 :
    (∀ t p, defaultVisitRigidTy (.Pat t p) = .notYetImplemented) ∧
    (∀ t, defaultVisitRigidTy (.Slice t) = .notYetImplemented) ∧
    (∀ s, defaultVisitRigidTy (.FnPtr s) = .notYetImplemented) ∧
    (∀ d a, defaultVisitRigidTy (.Closure d a) = .notYetImplemented) ∧
    (∀ d a m, defaultVisitRigidTy (.Coroutine d a m) = .notYetImplemented) ∧
    (∀ d a, defaultVisitRigidTy (.CoroutineWitness d a) = .notYetImplemented) ∧
    (∀ k t, defaultVisitAliasTy k t = .notYetImplemented) ∧
    (∀ d a, defaultVisitRigidTy (.Adt d a) = .completed) ∧
    (∀ t c, defaultVisitRigidTy (.Array t c) = .completed) ∧
    (∀ t m, defaultVisitRigidTy (.RawPtr t m) = .completed) ∧
    (∀ r t m, defaultVisitRigidTy (.Ref r t m) = .completed) ∧
    (∀ d a, defaultVisitRigidTy (.FnDef d a) = .completed) ∧
    (∀ ts, defaultVisitRigidTy (.Tuple ts) = .completed) :=
  ⟨fun _ _ => rfl, fun _ => rfl, fun _ => rfl, fun _ _ => rfl,
   fun _ _ _ => rfl, fun _ _ => rfl, fun k _ => by cases k <;> rfl,
   fun _ _ => rfl, fun _ _ => rfl, fun _ _ => rfl, fun _ _ _ => rfl,
   fun _ _ => rfl, fun _ => rfl⟩

/-- Counterexample to C5 as frozen: an ADT node's default visit returns
silently (super_adt holds only a commented-out todo!), it does not
terminate with a not-yet-implemented failure. -/
theorem adt_descent_silent_C5_cx :
    defaultVisitRigidTy (.Adt 0 0) = .completed ∧
    Descent.completed ≠ Descent.notYetImplemented :=
  ⟨rfl, by decide⟩

/-! ## Claim theorems: visitor wiring (C7) -/

/-- Claim C7 (amended): for every node kind with a visit / structural-
descent pair, the default visit invokes the matching super, and no super
invokes the visit of its own kind (directly, on any node); every operation
a structural descent invokes is a visit operation, except that
super_ret_decl and super_arg_decl delegate to the shared super_local_decl
body — so a visitor that overrides visit_X and calls super_X from inside it
is not re-entered at visit_X. -/
theorem visitor_wiring_C7 :
    (∀ p ∈ visitSuperPairs,
      p.2 ∈ directCalls p.1 ∧ p.1 ∉ directCalls p.2) ∧
    (∀ p ∈ visitSuperPairs, ∀ o ∈ directCalls p.2,
      o ∈ visitOps ∨
        (p.2 = Op.superRetDecl ∨ p.2 = Op.superArgDecl) ∧
          o = Op.superLocalDecl) := by
  constructor <;> decide

/-- Counterexample to C7 as frozen: super_ret_decl invokes
super_local_decl, a structural-descent operation, not a visit operation —
so "structural descent of X invokes only visit operations" fails. -/
theorem super_delegation_C7_cx :
    Op.superLocalDecl ∈ directCalls Op.superRetDecl ∧
    Op.superLocalDecl ∉ visitOps :=
  ⟨by decide, by decide⟩

/-- Witness for the amended C7 at the body node kind. -/
theorem visitor_wiring_C7_w :
    (Op.visitBody, Op.superBody) ∈ visitSuperPairs ∧
    Op.visitBasicBlock ∈ directCalls Op.superBody ∧
    (Op.superBody ∈ directCalls Op.visitBody ∧
      Op.visitBody ∉ directCalls Op.superBody) ∧
    (Op.visitBasicBlock ∈ visitOps ∨
      (Op.superBody = Op.superRetDecl ∨ Op.superBody = Op.superArgDecl) ∧
        Op.visitBasicBlock = Op.superLocalDecl) :=
  ⟨by decide, by decide,
    visitor_wiring_C7.1 (Op.visitBody, Op.superBody) (by decide),
    visitor_wiring_C7.2 (Op.visitBody, Op.superBody) (by decide)
      Op.visitBasicBlock (by decide)⟩

/-! ## Claim theorems: mutation classification (C6) -/

/-- Every event of an operand's visit occurs in the visit of any rvalue
whose operand list (the operands super_rvalue feeds to visit_operand)
contains it. -/
theorem operand_in_rvalue_trace (rv : Rvalue) (o : Operand) (loc : Location)
    (ho : o ∈ rvalueOperands rv) :
    ∀ e ∈ traceVisitOperand o loc, e ∈ traceVisitRvalue rv loc := by
  intro e he
  cases rv with
  | AddressOf m p => simp [rvalueOperands] at ho
  | Aggregate k ops =>
    simp only [rvalueOperands] at ho
    simp only [traceVisitRvalue]
    exact List.mem_cons_of_mem _ (List.mem_flatMap.mpr ⟨o, ho, he⟩)
  | BinaryOp k lhs rhs =>
    simp only [rvalueOperands, List.mem_cons, List.not_mem_nil,
      or_false] at ho
    simp only [traceVisitRvalue]
    rcases ho with rfl | rfl
    · exact List.mem_cons_of_mem _ (List.mem_append_left _ he)
    · exact List.mem_cons_of_mem _ (List.mem_append_right _ he)
  | CheckedBinaryOp k lhs rhs =>
    simp only [rvalueOperands, List.mem_cons, List.not_mem_nil,
      or_false] at ho
    simp only [traceVisitRvalue]
    rcases ho with rfl | rfl
    · exact List.mem_cons_of_mem _ (List.mem_append_left _ he)
    · exact List.mem_cons_of_mem _ (List.mem_append_right _ he)
  | Cast k op ty =>
    simp only [rvalueOperands, List.mem_singleton] at ho
    subst ho
    simp only [traceVisitRvalue]
    exact List.mem_cons_of_mem _ (List.mem_append_left _ he)
  | CopyForDeref p => simp [rvalueOperands] at ho
  | Discriminant p => simp [rvalueOperands] at ho
  | Len p => simp [rvalueOperands] at ho
  | Ref r k p => simp [rvalueOperands] at ho
  | Repeat op c =>
    simp only [rvalueOperands, List.mem_singleton] at ho
    subst ho
    simp only [traceVisitRvalue]
    exact List.mem_cons_of_mem _ (List.mem_append_left _ he)
  | ShallowInitBox op ty =>
    simp only [rvalueOperands, List.mem_singleton] at ho
    subst ho
    simp only [traceVisitRvalue]
    exact List.mem_cons_of_mem _ (List.mem_append_right _ he)
  | ThreadLocalRef it => simp [rvalueOperands] at ho
  | NullaryOp k ty => simp [rvalueOperands] at ho
  | UnaryOp k op =>
    simp only [rvalueOperands, List.mem_singleton] at ho
    subst ho
    simp only [traceVisitRvalue]
    exact List.mem_cons_of_mem _ he
  | Use op =>
    simp only [rvalueOperands, List.mem_singleton] at ho
    subst ho
    simp only [traceVisitRvalue]
    exact List.mem_cons_of_mem _ he

/-- Claim C6: in the default traversal of an Assign statement the
left-hand place is visited with the MUTATING context and every place
inside a Copy or Move operand of the right-hand side is visited with the
NON_MUTATING context; a StorageDead statement's local is visited with the
NON_USE context. -/
theorem mutation_classification_C6 :
    (∀ (p : Place) (rv : Rvalue) (sp : Span) (loc : Location),
      Event.placeV p PlaceContext.MUTATING ∈
        traceVisitStatement ⟨.Assign p rv, sp⟩ loc) ∧
    (∀ (p : Place) (rv : Rvalue) (sp : Span) (loc : Location)
        (o : Operand) (q : Place),
      o ∈ rvalueOperands rv → o = .Copy q ∨ o = .Move q →
      Event.placeV q PlaceContext.NON_MUTATING ∈
        traceVisitStatement ⟨.Assign p rv, sp⟩ loc) ∧
    (∀ (l : Local) (sp : Span) (loc : Location),
      Event.localV l PlaceContext.NON_USE ∈
        traceVisitStatement ⟨.StorageDead l, sp⟩ loc) := by
  refine ⟨?_, ?_, ?_⟩
  · intro p rv sp loc
    simp only [traceVisitStatement, traceVisitPlace]
    exact List.mem_append_right _
      (List.mem_append_left _ (List.mem_cons_self _ _))
  · intro p rv sp loc o q ho hoq
    have hq : Event.placeV q PlaceContext.NON_MUTATING ∈
        traceVisitOperand o loc := by
      rcases hoq with rfl | rfl <;>
        · simp only [traceVisitOperand, traceVisitPlace]
          exact List.mem_cons_of_mem _ (List.mem_cons_self _ _)
    have hrv := operand_in_rvalue_trace rv o loc ho _ hq
    simp only [traceVisitStatement]
    exact List.mem_append_right _ (List.mem_append_right _ hrv)
  · intro l sp loc
    simp only [traceVisitStatement, traceVisitLocal]
    exact List.mem_append_right _ (List.mem_cons_self _ _)

/-- Witness for C6 at a concrete assignment and storage marker. -/
theorem mutation_classification_C6_w :
    (Operand.Copy ⟨1, []⟩ ∈ rvalueOperands (.Use (.Copy ⟨1, []⟩)) ∧
      (Operand.Copy ⟨1, []⟩ = Operand.Copy ⟨1, []⟩ ∨
        Operand.Copy ⟨1, []⟩ = Operand.Move ⟨1, []⟩)) ∧
    Event.placeV ⟨0, []⟩ PlaceContext.MUTATING ∈
      traceVisitStatement ⟨.Assign ⟨0, []⟩ (.Use (.Copy ⟨1, []⟩)), 7⟩ ⟨7⟩ ∧
    Event.placeV ⟨1, []⟩ PlaceContext.NON_MUTATING ∈
      traceVisitStatement ⟨.Assign ⟨0, []⟩ (.Use (.Copy ⟨1, []⟩)), 7⟩ ⟨7⟩ ∧
    Event.localV 2 PlaceContext.NON_USE ∈
      traceVisitStatement ⟨.StorageDead 2, 7⟩ ⟨7⟩ :=
  ⟨⟨by decide, Or.inl rfl⟩,
   mutation_classification_C6.1 ⟨0, []⟩ (.Use (.Copy ⟨1, []⟩)) 7 ⟨7⟩,
   mutation_classification_C6.2.1 ⟨0, []⟩ (.Use (.Copy ⟨1, []⟩)) 7 ⟨7⟩
     (.Copy ⟨1, []⟩) ⟨1, []⟩ (by decide) (Or.inl rfl),
   mutation_classification_C6.2.2 2 7 ⟨7⟩⟩

/-! ## Claim theorems: partial-place typing (C9) -/

theorem placeTy_foldl_error (elems : List PlaceTy.MElem) (err : Unit) :
    elems.foldl
      (fun place_ty elem => place_ty.bind fun t => PlaceTy.elemTy elem t)
      (Except.error err) = Except.error err := by
  induction elems with
  | nil => rfl
  | cons e rest ih => exact ih

theorem placeTy_foldl_eq_rec (elems : List PlaceTy.MElem)
    (t : PlaceTy.MTy) :
    elems.foldl
      (fun place_ty elem => place_ty.bind fun t => PlaceTy.elemTy elem t)
      (Except.ok t) = PlaceTy.placeTyRec elems t := by
  induction elems generalizing t with
  | nil => rfl
  | cons e rest ih =>
    rw [List.foldl_cons]
    show rest.foldl _ (PlaceTy.elemTy e t) = _
    simp only [PlaceTy.placeTyRec]
    cases he : PlaceTy.elemTy e t with
    | ok t' => exact ih t'
    | error err => exact placeTy_foldl_error rest err

theorem placeTyRec_append (xs ys : List PlaceTy.MElem) (t : PlaceTy.MTy) :
    PlaceTy.placeTyRec (xs ++ ys) t =
      match PlaceTy.placeTyRec xs t with
      | .ok t' => PlaceTy.placeTyRec ys t'
      | .error err => .error err := by
  induction xs generalizing t with
  | nil => rfl
  | cons e rest ih =>
    simp only [List.cons_append, PlaceTy.placeTyRec]
    cases he : PlaceTy.elemTy e t with
    | ok t' => exact ih t'
    | error err => rfl

/-- Claim C9: PlaceRef::ty computes the type by folding the projection
steps left-to-right from the local's declared type — it agrees with the
direct step-by-step manual computation — and whenever some step is
inapplicable to the type reached so far the fold returns the failure value
Err, never a panic. -/
theorem placeref_ty_fold_C9 (pr : PlaceTy.PlaceRef)
    (locals : List PlaceTy.LocalDecl) (h : pr.locl < locals.length) :
    PlaceTy.PlaceRef.tyOf pr locals h =
      PlaceTy.placeTyRec pr.projection (locals.get ⟨pr.locl, h⟩).ty ∧
    ∀ pre e post t',
      pr.projection = pre ++ e :: post →
      PlaceTy.placeTyRec pre (locals.get ⟨pr.locl, h⟩).ty =
        Except.ok t' →
      PlaceTy.elemTy e t' = Except.error () →
      PlaceTy.PlaceRef.tyOf pr locals h = Except.error () := by
  have h1 : PlaceTy.PlaceRef.tyOf pr locals h =
      PlaceTy.placeTyRec pr.projection (locals.get ⟨pr.locl, h⟩).ty :=
    placeTy_foldl_eq_rec pr.projection (locals.get ⟨pr.locl, h⟩).ty
  refine ⟨h1, ?_⟩
  intro pre e post t' hproj hpre herr
  rw [h1, hproj, placeTyRec_append, hpre]
  show PlaceTy.placeTyRec (e :: post) t' = Except.error ()
  simp only [PlaceTy.placeTyRec]
  rw [herr]

/-- Witness for C9 at a concrete place: dereference then second tuple
field succeeds and agrees with the manual computation; a field access on a
reference type fails with Err. -/
theorem placeref_ty_fold_C9_w :
    (0 : Nat) < 1 ∧
    PlaceTy.PlaceRef.tyOf ⟨0, [.Deref, .Field 1]⟩
        [⟨.ref (.tup [.prim 0, .prim 1]), 0⟩] (by decide) =
      PlaceTy.placeTyRec [.Deref, .Field 1]
        (.ref (.tup [.prim 0, .prim 1])) ∧
    PlaceTy.PlaceRef.tyOf ⟨0, [.Field 0]⟩
        [⟨.ref (.tup [.prim 0, .prim 1]), 0⟩] (by decide) =
      Except.error () :=
  ⟨by decide,
   (placeref_ty_fold_C9 ⟨0, [.Deref, .Field 1]⟩
     [⟨.ref (.tup [.prim 0, .prim 1]), 0⟩] (by decide)).1,
   (placeref_ty_fold_C9 ⟨0, [.Field 0]⟩
     [⟨.ref (.tup [.prim 0, .prim 1]), 0⟩] (by decide)).2
     [] (.Field 0) [] (.ref (.tup [.prim 0, .prim 1])) rfl rfl rfl⟩

end StableMir
